import Mathlib

/-!
Verification of the Fund-Mandate wizard core (SourcingAgent component of
`apps/client/src/pages/fundMandate.tsx`) against its natural-language
specification.  The TypeScript code is shallowly embedded: JavaScript
values become the inductive `JVal`, React state slots become fields of
`AgentState`, and each WebSocket `onmessage` handler becomes a pure step
function on `AgentState`.  Exceptions (JSON parse failures,
`Object.entries(null)`, array methods on non-arrays) are modelled with
`Except`.
-/

set_option maxRecDepth 4000

/-- Model of a JavaScript runtime value as consumed by the component.
`jundefined` is `undefined`; objects are ordered association lists, matching
JS own-property insertion order. -/
inductive JVal where
  | jnull
  | jundefined
  | jbool (b : Bool)
  | jnum (n : Int)
  | jstr (s : String)
  | jarr (xs : List JVal)
  | jobj (fields : List (String × JVal))

/-- JS truthiness: `null`, `undefined`, `false`, `0`, `""` are falsy;
all objects and arrays are truthy. -/
def truthy : JVal → Bool
  | .jnull => false
  | .jundefined => false
  | .jbool b => b
  | .jnum n => n != 0
  | .jstr s => !s.isEmpty
  | .jarr _ => true
  | .jobj _ => true

/-- JS nullish test (`null` or `undefined`), as used by `??` and `?.`. -/
def isNullish : JVal → Bool
  | .jnull => true
  | .jundefined => true
  | _ => false

/-- First-match lookup in an object's field list (JS objects have unique
keys, so first match is the match). -/
def lookupField : List (String × JVal) → String → JVal
  | [], _ => .jundefined
  | p :: ps, k => if p.1 = k then p.2 else lookupField ps k

/-- Property access `v[k]` on a non-nullish value: object lookup, and
`undefined` for primitives/arrays without that named property. -/
def getField (v : JVal) (k : String) : JVal :=
  match v with
  | .jobj fs => lookupField fs k
  | _ => .jundefined

/-- Optional chaining `v?.k`: `undefined` when `v` is nullish. -/
def optGet (v : JVal) (k : String) : JVal :=
  if isNullish v then .jundefined else getField v k

/-- Property access that raises `TypeError` on nullish receivers, as plain
`v.k` does in JS. -/
def getFieldE (v : JVal) (k : String) : Except String JVal :=
  if isNullish v then .error "TypeError" else .ok (getField v k)

/-- `a ?? b` (nullish coalescing). -/
def nvl (a b : JVal) : JVal := if isNullish a then b else a

/-- `a || b` (truthy-based or). -/
def orJ (a b : JVal) : JVal := if truthy a then a else b

/-- Strict string equality test `v === s`. -/
def isStrEq (v : JVal) (s : String) : Bool :=
  match v with
  | .jstr t => t == s
  | _ => false

/-- JS `String.prototype.toUpperCase` restricted to the ASCII range that
these comparisons exercise, written over the character list so it
evaluates. -/
def jsToUpper (s : String) : String := ⟨s.data.map Char.toUpper⟩

mutual

/-- `String(v)` coercion. -/
def jsString : JVal → String
  | .jnull => "null"
  | .jundefined => "undefined"
  | .jbool b => if b then "true" else "false"
  | .jnum n => toString n
  | .jstr s => s
  | .jarr xs => String.intercalate "," (jsStringElems xs)
  | .jobj _ => "[object Object]"

/-- Elements of `Array.prototype.toString`: nullish elements print empty. -/
def jsStringElems : List JVal → List String
  | [] => []
  | v :: vs =>
    (match v with
     | .jnull => ""
     | .jundefined => ""
     | w => jsString w) :: jsStringElems vs

end

/-- `String(v)` after a `?? ''` guard, used for `String(entries[i] ?? '')`. -/
def nvlStr (v : JVal) : String :=
  match v with
  | .jnull => ""
  | .jundefined => ""
  | w => jsString w

/-- `Object.entries(v)`: association list for objects, indexed pairs for
arrays and strings, `[]` for other primitives, `TypeError` on nullish. -/
def jsEntries : JVal → Except String (List (String × JVal))
  | .jnull => .error "TypeError"
  | .jundefined => .error "TypeError"
  | .jobj fs => .ok fs
  | .jarr xs => .ok (xs.enum.map (fun p => (toString p.1, p.2)))
  | .jstr s => .ok (s.data.enum.map (fun p => (toString p.1, JVal.jstr (String.singleton p.2))))
  | .jbool _ => .ok []
  | .jnum _ => .ok []

/-- Error-propagating map; models JS `Array.prototype.map` with a callback
that can throw: the first throwing element aborts the whole map. -/
def mapE (f : α → Except ε β) : List α → Except ε (List β)
  | [] => .ok []
  | a :: as =>
    match f a with
    | .error e => .error e
    | .ok b =>
      match mapE f as with
      | .error e => .error e
      | .ok bs => .ok (b :: bs)

theorem mapE_ok_of_forall {f : α → Except ε β} {g : α → β} (l : List α)
    (h : ∀ a ∈ l, f a = .ok (g a)) : mapE f l = .ok (l.map g) := by
  induction l with
  | nil => rfl
  | cons a as ih =>
    have ha : f a = .ok (g a) := h a (List.mem_cons_self a as)
    have hrest : mapE f as = .ok (as.map g) :=
      ih (fun x hx => h x (List.mem_cons_of_mem a hx))
    simp [mapE, ha, hrest]

/-! ## Parameter Normalizer: `toDisplayArray` and the title-case rule -/

/-- JS `\w` character class (`[A-Za-z0-9_]`). -/
def jsIsWordChar (c : Char) : Bool := c.isAlphanum || c = '_'

/-- Uppercase the first character of each word (maximal run of word
characters); this is `replace(/\b\w/g, l => l.toUpperCase())` as a fold
carrying whether the previous character was a word character. -/
def ucStarts : Bool → List Char → List Char
  | _, [] => []
  | prev, c :: cs =>
    (if jsIsWordChar c && !prev then c.toUpper else c) :: ucStarts (jsIsWordChar c) cs

/-- The source's key transform at the character level:
`k.replace(/_/g, ' ').replace(/\b\w/g, l => l.toUpperCase())`. -/
def titleKeyList (l : List Char) : List Char :=
  ucStarts false (l.map (fun c => if c = '_' then ' ' else c))

/-- The source's key transform on strings. -/
def titleKey (s : String) : String := ⟨titleKeyList s.data⟩

/-- A `{key, value}` display parameter as produced by `toDisplayArray`. -/
structure Param where
  key : String
  value : String
deriving Repr, DecidableEq

/-- One element of the array branch of `toDisplayArray`: strings map to
`{key: item, value: ''}`, `typeof item === 'object'` values (including
`null`, which makes `Object.entries` throw) take their first entry, and
remaining primitives are stringified. -/
def itemToParam (item : JVal) : Except String Param :=
  match item with
  | .jstr s => .ok ⟨s, ""⟩
  | .jnull =>
    (jsEntries .jnull).map (fun entries =>
      match entries with
      | [] => ⟨"", ""⟩
      | (k, v) :: _ => ⟨k, nvlStr v⟩)
  | .jarr xs =>
    (jsEntries (.jarr xs)).map (fun entries =>
      match entries with
      | [] => ⟨"", ""⟩
      | (k, v) :: _ => ⟨k, nvlStr v⟩)
  | .jobj fs =>
    (jsEntries (.jobj fs)).map (fun entries =>
      match entries with
      | [] => ⟨"", ""⟩
      | (k, v) :: _ => ⟨k, nvlStr v⟩)
  | v => .ok ⟨jsString v, ""⟩

/-- The Parameter Normalizer `toDisplayArray` from
`fundMandate.tsx` (identical copy in `src/unnamed/part_002`):
falsy inputs give `[]`; arrays map elementwise; other objects map their
entries with the title-case key transform; remaining truthy primitives
give a singleton. -/
def toDisplayArray (obj : JVal) : Except String (List Param) :=
  if !truthy obj then .ok []
  else
    match obj with
    | .jarr xs => mapE itemToParam xs
    | .jobj fs => .ok (fs.map (fun p => ⟨titleKey p.1, jsString p.2⟩))
    | v => .ok [⟨jsString v, ""⟩]

/-! Spec-side title-case: split on underscore, uppercase the first
character of each word, join with single spaces. -/

/-- Split a character list on a separator character; pieces do not
contain the separator, and there is one more piece than separators. -/
def splitOnChar (sep : Char) : List Char → List (List Char)
  | [] => [[]]
  | c :: cs =>
    match splitOnChar sep cs with
    | [] => if c = sep then [[], []] else [[c]]
    | p :: ps => if c = sep then [] :: p :: ps else (c :: p) :: ps

/-- Join pieces with a single space between consecutive pieces. -/
def joinSp : List (List Char) → List Char
  | [] => []
  | [p] => p
  | p :: q :: ps => p ++ ' ' :: joinSp (q :: ps)

/-- The claim's reading of the title-case rule: split the key on `'_'`,
uppercase the first character of each word, join with single spaces. -/
def specTitleKeyList (l : List Char) : List Char :=
  joinSp ((splitOnChar '_' l).map (ucStarts false))

theorem splitOnChar_ne_nil (sep : Char) (l : List Char) : splitOnChar sep l ≠ [] := by
  cases l with
  | nil => simp [splitOnChar]
  | cons c cs =>
    simp only [splitOnChar]
    cases h : splitOnChar sep cs with
    | nil => by_cases hc : c = sep <;> simp [hc]
    | cons p ps => by_cases hc : c = sep <;> simp [hc]

theorem joinSp_cons_cons (c : Char) (p : List Char) (ps : List (List Char)) :
    joinSp ((c :: p) :: ps) = c :: joinSp (p :: ps) := by
  cases ps with
  | nil => rfl
  | cons q ps' => rfl

theorem joinSp_splitOnChar (l : List Char) :
    joinSp (splitOnChar '_' l) = l.map (fun c => if c = '_' then ' ' else c) := by
  induction l with
  | nil => rfl
  | cons c cs ih =>
    simp only [splitOnChar]
    cases h : splitOnChar '_' cs with
    | nil => exact absurd h (splitOnChar_ne_nil '_' cs)
    | cons p ps =>
      rw [h] at ih
      by_cases hc : c = '_'
      · subst hc
        simp only [if_pos rfl, List.map_cons, if_pos rfl]
        show joinSp ([] :: p :: ps) = ' ' :: _
        simp only [joinSp, List.nil_append]
        rw [ih]
      · simp only [if_neg hc, List.map_cons, if_neg hc]
        rw [joinSp_cons_cons, ih]

theorem ucStarts_append_space (p rest : List Char) (prev : Bool) :
    ucStarts prev (p ++ ' ' :: rest) = ucStarts prev p ++ ' ' :: ucStarts false rest := by
  induction p generalizing prev with
  | nil => simp [ucStarts, jsIsWordChar]
  | cons c cs ih => simp [ucStarts, ih]

theorem ucStarts_joinSp (pieces : List (List Char)) :
    ucStarts false (joinSp pieces) = joinSp (pieces.map (ucStarts false)) := by
  induction pieces with
  | nil => rfl
  | cons p ps ih =>
    cases ps with
    | nil => rfl
    | cons q ps' =>
      have h1 : joinSp (p :: q :: ps') = p ++ ' ' :: joinSp (q :: ps') := rfl
      have h2 : joinSp (ucStarts false p :: ucStarts false q :: ps'.map (ucStarts false))
          = ucStarts false p ++ ' ' :: joinSp (ucStarts false q :: ps'.map (ucStarts false)) := rfl
      rw [h1, ucStarts_append_space]
      simp only [List.map_cons, h2]
      rw [ih]
      simp only [List.map_cons]

theorem titleKeyList_eq_spec (l : List Char) : titleKeyList l = specTitleKeyList l := by
  unfold titleKeyList specTitleKeyList
  rw [← joinSp_splitOnChar, ucStarts_joinSp]

/-! ## Wizard state: the SourcingAgent component's state slots -/

/-- Boolean record lookup `!!m[k]` over a string-keyed JS object used as a
selection map. -/
def recGet : List (String × Bool) → String → Bool
  | [], _ => false
  | p :: ps, k => if p.1 = k then p.2 else recGet ps k

/-- Boolean record lookup `!!m[i]` over a number-keyed JS object. -/
def recGetN : List (Nat × Bool) → Nat → Bool
  | [], _ => false
  | p :: ps, k => if p.1 = k then p.2 else recGetN ps k

/-- `{...prev, [k]: b}`: update in place when present, else append. -/
def recSet (m : List (String × Bool)) (k : String) (b : Bool) : List (String × Bool) :=
  if m.any (fun p => p.1 = k) then m.map (fun p => if p.1 = k then (k, b) else p)
  else m ++ [(k, b)]

/-- The React state slots of the `SourcingAgent` component together with
the `agentThinkingSteps` closure array of `handleScreenCompanies` and a
count of `ws.close()` calls made by the message handlers. -/
structure AgentState where
  currentStep : Nat
  sourcingList : List Param
  screeningList : List Param
  riskAnalysisList : List Param
  selectedSourcingKeys : List (String × Bool)
  selectedScreeningKeys : List (String × Bool)
  selectedRiskAnalysisKeys : List (String × Bool)
  selectedCompanies : List (Nat × Bool)
  isSubmitting : Bool
  filterResponse : JVal
  screeningResponse : JVal
  riskAnalysisResponse : JVal
  expandedScreeningResults : List (Nat × Bool)
  streamingEvents : List JVal
  showStreamingPanel : Bool
  agentThinkingSteps : List String
  closeCalls : Nat

/-- The component's initial state (the `useState` initialisers). -/
def initialAgentState : AgentState where
  currentStep := 0
  sourcingList := []
  screeningList := []
  riskAnalysisList := []
  selectedSourcingKeys := []
  selectedScreeningKeys := []
  selectedRiskAnalysisKeys := []
  selectedCompanies := []
  isSubmitting := false
  filterResponse := .jnull
  screeningResponse := .jnull
  riskAnalysisResponse := .jnull
  expandedScreeningResults := []
  streamingEvents := []
  showStreamingPanel := false
  agentThinkingSteps := []
  closeCalls := 0

/-- Body of the auto-select `useEffect`s: every key of the list set to
`true`. -/
def seedAllSelected (l : List Param) : List (String × Bool) :=
  l.map (fun p => (p.key, true))

/-- The auto-select `useEffect` guarded by `list.length > 0`. -/
def seedEffect (l : List Param) (prev : List (String × Bool)) : List (String × Bool) :=
  if l.length > 0 then seedAllSelected l else prev

/-- `getSelectedSourcingItems`. -/
def getSelectedSourcingItems (s : AgentState) : List Param :=
  s.sourcingList.filter (fun p => recGet s.selectedSourcingKeys p.key)

/-- `getSelectedScreeningItems`. -/
def getSelectedScreeningItems (s : AgentState) : List Param :=
  s.screeningList.filter (fun p => recGet s.selectedScreeningKeys p.key)

/-- `getSelectedRiskAnalysisItems`. -/
def getSelectedRiskAnalysisItems (s : AgentState) : List Param :=
  s.riskAnalysisList.filter (fun p => recGet s.selectedRiskAnalysisKeys p.key)

/-- `getSelectedCompanyList`: the qualified companies of the sourcing
result whose index is currently selected. -/
def getSelectedCompanyList (s : AgentState) : List JVal :=
  let q := optGet (optGet s.filterResponse "companies") "qualified"
  if !truthy q then []
  else
    match q with
    | .jarr xs => (xs.enum.filter (fun p => recGetN s.selectedCompanies p.1)).map (fun p => p.2)
    | _ => []

/-- `resetScreening`: clears the screening response, the expanded-row map
and the company selection map — and nothing else. -/
def resetScreening (s : AgentState) : AgentState :=
  { s with screeningResponse := .jnull, expandedScreeningResults := [], selectedCompanies := [] }

/-- `resetRiskAnalysis`: clears only the risk-analysis response. -/
def resetRiskAnalysis (s : AgentState) : AgentState :=
  { s with riskAnalysisResponse := .jnull }

/-! ## Streaming message handlers -/

/-- The transformed sourcing response
`{companies: {qualified: eventData.result.qualified || []}}`. -/
def sourcingAggregate (e : JVal) : JVal :=
  .jobj [("companies", .jobj [("qualified",
    orJ (getField (getField e "result") "qualified") (.jarr []))])]

/-- `ws.onmessage` of `handleSourceCompanies`, given the parsed frame (or
`none` when `JSON.parse` throws; the resulting exception is uncaught, so
the state is left as it was). -/
def sourcingOnMessage (s : AgentState) (raw : Option JVal) : AgentState :=
  match raw with
  | none => s
  | some e =>
    let s1 := { s with streamingEvents := s.streamingEvents ++ [e] }
    if isStrEq (getField e "type") "analysis_complete" && truthy (getField e "result") then
      { s1 with filterResponse := sourcingAggregate e
                showStreamingPanel := false
                closeCalls := s1.closeCalls + 1 }
    else s1

/-! Cleaning of agent-thinking content in `handleScreenCompanies`:
`content.replace(/^[<emoji class>]\s*/g, '').replace(/^STEP \d+:\s*/i, '').trim()`.
The character class is the one that appears literally in the source file
(its UTF-8 emoji originals were mis-decoded into the characters below,
which is what the regex engine receives). -/

/-- The characters of the leading character class in the source regex. -/
def emojiChars : List Char :=
  [Char.ofNat 0xe2, Char.ofNat 0x153, Char.ofNat 0x2026, Char.ofNat 0xf0,
   Char.ofNat 0x178, Char.ofNat 0x2019, Char.ofNat 0xad, Char.ofNat 0x201d,
   Char.ofNat 0xa7, Char.ofNat 0x161, Char.ofNat 0x2122, Char.ofNat 0xef,
   Char.ofNat 0xb8, Char.ofNat 0x8f, Char.ofNat 0xa8, Char.ofNat 0x201c,
   Char.ofNat 0x2039, Char.ofNat 0xb3, Char.ofNat 0x160, Char.ofNat 0xa4,
   Char.ofNat 0x2013]

/-- JS regex `\s`. -/
def jsIsSpace (c : Char) : Bool :=
  c = ' ' || c = '\t' || c = '\n' || c = '\x0d' || c = '\x0b' || c = '\x0c' ||
  c.val = 0xa0 || c.val = 0x1680 || (0x2000 ≤ c.val && c.val ≤ 0x200a) ||
  c.val = 0x2028 || c.val = 0x2029 || c.val = 0x202f || c.val = 0x205f ||
  c.val = 0x3000 || c.val = 0xfeff

/-- `replace(/^[<class>]\s*/g, '')`: strips one leading class character
plus the following whitespace run (the `^` anchor fires at most once). -/
def stripEmoji : List Char → List Char
  | [] => []
  | c :: rest => if c ∈ emojiChars then rest.dropWhile jsIsSpace else c :: rest

/-- `replace(/^STEP \d+:\s*/i, '')`: strips a case-insensitive `STEP`,
one space, at least one digit, a colon and trailing whitespace, when that
exact prefix is present. -/
def stripStep (l : List Char) : List Char :=
  match l with
  | a :: b :: c :: d :: ' ' :: rest =>
    if a.toLower = 's' && b.toLower = 't' && c.toLower = 'e' && d.toLower = 'p' then
      let ds := rest.takeWhile Char.isDigit
      let r := rest.dropWhile Char.isDigit
      if ds.isEmpty then l
      else
        match r with
        | ':' :: r2 => r2.dropWhile jsIsSpace
        | _ => l
    else l
  | _ => l

/-- JS `String.prototype.trim` at the character level. -/
def jsTrimList (l : List Char) : List Char :=
  ((l.dropWhile jsIsSpace).reverse.dropWhile jsIsSpace).reverse

/-- The full thinking-content cleanup of `handleScreenCompanies`. -/
def cleanThinking (content : String) : String :=
  ⟨jsTrimList (stripStep (stripEmoji content.data))⟩

/-- The thinking-step contribution of one parsed frame: pushed iff the
frame's `type` and `content` are truthy, `content` is a string, and the
cleaned content is non-empty. The `message` field is never consulted. -/
def codeThinkStep (e : JVal) : Option String :=
  if truthy (getField e "type") && truthy (getField e "content") then
    match getField e "content" with
    | .jstr str =>
      let clean := cleanThinking str
      if clean.isEmpty then none else some clean
    | _ => none
  else none

/-- Object spread `{...v}` as a field list. -/
def objSpread : JVal → List (String × JVal)
  | .jobj fs => fs
  | .jarr xs => xs.enum.map (fun p => (toString p.1, p.2))
  | .jstr s => s.data.enum.map (fun p => (toString p.1, JVal.jstr (String.singleton p.2)))
  | _ => []

/-- Setting a field in an object literal after a spread: overrides in
place when the key already exists, else appends. -/
def objSet (fs : List (String × JVal)) (k : String) (v : JVal) : List (String × JVal) :=
  if fs.any (fun p => p.1 = k) then fs.map (fun p => if p.1 = k then (k, v) else p)
  else fs ++ [(k, v)]

/-- `ws.onmessage` of `handleScreenCompanies` (parse failure is an
uncaught exception thrown before any mutation). -/
def screeningOnMessage (s : AgentState) (raw : Option JVal) : AgentState :=
  match raw with
  | none => s
  | some e =>
    let s1 := { s with streamingEvents := s.streamingEvents ++ [e] }
    let s2 :=
      match codeThinkStep e with
      | some clean => { s1 with agentThinkingSteps := s1.agentThinkingSteps ++ [clean] }
      | none => s1
    if isStrEq (getField e "type") "final_result" && truthy (getField e "content") then
      { s2 with
        screeningResponse :=
          .jobj (objSet (objSpread (getField e "content")) "agent_thinking"
            (.jarr (s2.agentThinkingSteps.map JVal.jstr)))
        showStreamingPanel := false
        closeCalls := s2.closeCalls + 1 }
    else s2

/-! ## Risk Analysis: `handleAnalyzeRisk` terminal transform -/

/-- `val?.status ?? val?.Status ?? val?.status_text`. -/
def statusChain (val : JVal) : JVal :=
  nvl (optGet val "status") (nvl (optGet val "Status") (optGet val "status_text"))

/-- One `risk_scores` entry from a `parameter_analysis` entry. -/
def riskScoreOf (category : String) (val : JVal) : JVal :=
  let statusStr := jsToUpper (jsString (nvl (statusChain val) (.jstr "")))
  let reasonVal :=
    if truthy val then
      orJ (getField val "reason") (orJ (getField val "Reason") (optGet val "reason_text"))
    else val
  .jobj [("category", .jstr category),
         ("status", nvl (statusChain val) (.jstr statusStr)),
         ("reason", orJ reasonVal (.jstr ""))]

/-- `c.company_name || c.Company || c.company || 'Unknown'`. -/
def companyNameOf (c : JVal) : JVal :=
  orJ (getField c "company_name") (orJ (getField c "Company")
    (orJ (getField c "company") (.jstr "Unknown")))

/-- `c.overall_assessment || c.overall_result || c.overall_status ||
c.overallStatus || c.overall || ''`. -/
def overallStatusOf (c : JVal) : JVal :=
  orJ (getField c "overall_assessment") (orJ (getField c "overall_result")
    (orJ (getField c "overall_status") (orJ (getField c "overallStatus")
      (orJ (getField c "overall") (.jstr "")))))

/-- The per-company transform of the `session_complete` handler; direct
property access on a nullish array element throws. -/
def companyTransform (c : JVal) : Except String JVal := do
  let paRaw ← getFieldE c "parameter_analysis"
  let paRaw2 ← getFieldE c "parameterAnalysis"
  let entries ← jsEntries (orJ paRaw (orJ paRaw2 (.jobj [])))
  .ok (.jobj [("company_name", companyNameOf c),
              ("risk_scores", .jarr (entries.map (fun p => riskScoreOf p.1 p.2))),
              ("overall_status", overallStatusOf c)])

/-- `c.parameter_analysis || c.parameterAnalysis || {}` (total form). -/
def paOf (c : JVal) : JVal :=
  orJ (getField c "parameter_analysis") (orJ (getField c "parameterAnalysis") (.jobj []))

/-- Total entries of a never-nullish value. -/
def jsEntriesD (v : JVal) : List (String × JVal) :=
  match jsEntries v with
  | .ok es => es
  | .error _ => []

/-- Total form of `companyTransform`, which it equals on non-nullish
inputs. -/
def companyTransformT (c : JVal) : JVal :=
  .jobj [("company_name", companyNameOf c),
         ("risk_scores", .jarr ((jsEntriesD (paOf c)).map (fun p => riskScoreOf p.1 p.2))),
         ("overall_status", overallStatusOf c)]

/-- Whether a transformed company counts as passed:
`String(r.overall_status).toUpperCase() === 'SAFE'`. -/
def isPassed (r : JVal) : Bool :=
  jsToUpper (jsString (getField r "overall_status")) == "SAFE"

/-- The `session_complete` transform: map the raw results (a non-array
makes `.map` throw, caught by the inner `catch`), then attach the
`{total, passed}` summary. -/
def riskTransform (results : JVal) : Except String JVal :=
  match (if truthy results then results else .jarr []) with
  | .jarr xs => do
    let tcs ← mapE companyTransform xs
    .ok (.jobj [("all_companies", .jarr tcs),
                ("summary", .jobj [("total", .jnum tcs.length),
                                   ("passed", .jnum (tcs.filter isPassed).length)])])
  | _ => .error "TypeError"

/-- `ws.onmessage` of `handleAnalyzeRisk`: the outer `try` swallows parse
failures; the inner `try` swallows transform failures after the event was
already appended. -/
def riskOnMessage (s : AgentState) (raw : Option JVal) : AgentState :=
  match raw with
  | none => s
  | some e =>
    let s1 := { s with streamingEvents := s.streamingEvents ++ [e] }
    if isStrEq (getField e "type") "session_complete" && truthy (getField e "results") then
      match riskTransform (getField e "results") with
      | .ok tr =>
        { s1 with riskAnalysisResponse := tr
                  showStreamingPanel := false
                  closeCalls := s1.closeCalls + 1 }
      | .error _ => s1
    else s1

/-! ## Stage action gating (step-1 button and `handleScreenCompanies`) -/

/-- The `disabled` expression of the step-1 button:
`isSubmitting || (screeningResponse ? false : (getSelectedScreeningItems().length === 0 || getSelectedCompanyList().length === 0))`. -/
def screenButtonDisabled (s : AgentState) : Bool :=
  s.isSubmitting ||
    (if truthy s.screeningResponse then false
     else (getSelectedScreeningItems s).length == 0 || (getSelectedCompanyList s).length == 0)

/-- The synchronous validation prefix of `handleScreenCompanies`: returns
the updated state and whether the WebSocket request is actually made. -/
def handleScreenStart (s : AgentState) : AgentState × Bool :=
  if (getSelectedScreeningItems s).length == 0 then (s, false)
  else if (getSelectedCompanyList s).length == 0 then (s, false)
  else
    ({ s with isSubmitting := true
              screeningResponse := .jnull
              streamingEvents := []
              showStreamingPanel := true
              agentThinkingSteps := [] }, true)

/-! ## CSV export of the risk analysis result -/

/-- Whether a CSV field needs quoting: it contains a comma, a double
quote or a newline. -/
def needsQuote (s : String) : Bool :=
  s.data.contains ',' || s.data.contains '"' || s.data.contains '\n'

/-- `value.replace(/"/g, '""')` at the character level. -/
def escapeQuotesList : List Char → List Char
  | [] => []
  | c :: cs => if c = '"' then '"' :: '"' :: escapeQuotesList cs else c :: escapeQuotesList cs

/-- `escapeCSV`: double-quote with internal quotes doubled iff the value
contains a comma, a double quote or a newline. -/
def escapeCSV (value : String) : String :=
  if needsQuote value then "\"" ++ (⟨escapeQuotesList value.data⟩ : String) ++ "\""
  else value

/-- `escapeCSV` applied to a raw field value: JS would throw a `TypeError`
calling `.includes` on the non-string values that can reach it. -/
def escapeCSVJ (v : JVal) : Except String String :=
  match v with
  | .jstr s => .ok (escapeCSV s)
  | _ => .error "TypeError"

/-- The row pushed for one `(company, riskScore)` pair:
`[company_name, overall_status ?? '', category, status ?? '', reason ?? '']`
(the serial number is prepended afterwards); a nullish risk entry makes
the property accesses throw. -/
def riskRowFun (c : JVal) (r : JVal) : Except String (List JVal) :=
  if isNullish r then .error "TypeError"
  else .ok [getField c "company_name",
            nvl (getField c "overall_status") (.jstr ""),
            getField r "category",
            nvl (getField r "status") (.jstr ""),
            nvl (getField r "reason") (.jstr "")]

def companyRows (c : JVal) : Except String (List (List JVal)) := do
  let _ ← getFieldE c "company_name"
  match getField c "risk_scores" with
  | .jnull => .ok []
  | .jundefined => .ok []
  | .jarr rs => mapE (riskRowFun c) rs
  | _ => .error "TypeError"

/-- CSV header columns. -/
def csvHeaders : List String :=
  ["S.No.", "Company Name", "Overall Status", "Category", "Status", "Reason"]

/-- `exportRiskAnalysisToCSV` up to the produced `csvContent` string:
`none` models the early `toast.error('No data to export')` return, and a
thrown `TypeError` is caught by the surrounding `try`. -/
def exportRiskAnalysisToCSV (resp : JVal) : Option (Except String String) :=
  if !truthy (optGet resp "all_companies") then none
  else some (do
    let rowsPer ←
      match getField resp "all_companies" with
      | .jarr cs => mapE companyRows cs
      | _ => .error "TypeError"
    let rows := rowsPer.flatten
    let numbered := rows.enum.map (fun p => JVal.jstr (toString (p.1 + 1)) :: p.2)
    let escRows ← mapE (fun row => mapE escapeCSVJ row) numbered
    .ok (String.intercalate "\n"
      (String.intercalate "," (csvHeaders.map escapeCSV) ::
       escRows.map (String.intercalate ","))))

/-! ## Helper lemmas -/

theorem isNullish_of_truthy {v : JVal} (h : truthy v = true) : isNullish v = false := by
  cases v <;> simp_all [truthy, isNullish]

theorem isNullish_orJ (a : JVal) {b : JVal} (hb : isNullish b = false) :
    isNullish (orJ a b) = false := by
  unfold orJ
  by_cases h : truthy a = true
  · simp [h, isNullish_of_truthy h]
  · simp only [Bool.not_eq_true] at h
    simp [h, hb]

theorem jsEntries_eq_of_not_nullish {v : JVal} (h : isNullish v = false) :
    jsEntries v = .ok (jsEntriesD v) := by
  cases v <;> simp_all [jsEntries, jsEntriesD, isNullish]

theorem mapE_map (f : β → Except ε γ) (h : α → β) (l : List α) :
    mapE f (l.map h) = mapE (fun a => f (h a)) l := by
  induction l with
  | nil => rfl
  | cons a as ih => simp [mapE, ih]

theorem recGet_seedAll {l : List Param} {p : Param} (hp : p ∈ l) :
    recGet (seedAllSelected l) p.key = true := by
  induction l with
  | nil => cases hp
  | cons q rest ih =>
    have hstep : seedAllSelected (q :: rest) = (q.key, true) :: seedAllSelected rest := rfl
    rw [hstep]
    show (if q.key = p.key then true else recGet (seedAllSelected rest) p.key) = true
    by_cases h : q.key = p.key
    · simp [h]
    · simp only [if_neg h]
      cases hp with
      | head => exact absurd rfl h
      | tail _ hm => exact ih hm

theorem companyTransform_eq {c : JVal} (h : isNullish c = false) :
    companyTransform c = .ok (companyTransformT c) := by
  have hpa : isNullish (paOf c) = false :=
    isNullish_orJ _ (isNullish_orJ _ rfl)
  have hent := jsEntries_eq_of_not_nullish hpa
  unfold paOf at hent
  unfold companyTransform companyTransformT paOf
  simp only [getFieldE, h, Bool.false_eq_true, if_false]
  simp only [bind, Except.bind]
  rw [hent]

/-- Events folded through the screening message handler. -/
def screeningSession (s : AgentState) (evs : List JVal) : AgentState :=
  evs.foldl (fun st e => screeningOnMessage st (some e)) s

theorem screeningOnMessage_thinking (s : AgentState) (e : JVal) :
    (screeningOnMessage s (some e)).agentThinkingSteps =
      s.agentThinkingSteps ++ (codeThinkStep e).toList := by
  unfold screeningOnMessage
  cases h : codeThinkStep e <;> by_cases hterm :
      (isStrEq (getField e "type") "final_result" && truthy (getField e "content")) = true <;>
    simp [h, hterm]

theorem getField_cons (p : String × JVal) (fs : List (String × JVal)) (k : String) :
    getField (.jobj (p :: fs)) k = if p.1 = k then p.2 else getField (.jobj fs) k := rfl

theorem getField_setInPlace {fs : List (String × JVal)} {k : String} {v : JVal}
    (h : fs.any (fun p => p.1 = k) = true) :
    getField (.jobj (fs.map (fun p => if p.1 = k then (k, v) else p))) k = v := by
  induction fs with
  | nil => simp at h
  | cons p fsr ih =>
    by_cases hp : p.1 = k
    · simp only [List.map_cons, if_pos hp]
      rw [getField_cons]
      simp
    · simp only [List.map_cons, if_neg hp]
      rw [getField_cons, if_neg hp]
      apply ih
      simp only [List.any_cons, Bool.or_eq_true_iff] at h
      rcases h with h1 | h1
      · exact absurd (of_decide_eq_true h1) hp
      · exact h1

theorem getField_appendSingle {fs : List (String × JVal)} {k : String} {v : JVal}
    (h : fs.any (fun p => p.1 = k) = false) :
    getField (.jobj (fs ++ [(k, v)])) k = v := by
  induction fs with
  | nil =>
    rw [List.nil_append, getField_cons]
    simp
  | cons p fsr ih =>
    simp only [List.any_cons, Bool.or_eq_false_iff] at h
    have hp : ¬ p.1 = k := by simpa using h.1
    rw [List.cons_append, getField_cons, if_neg hp]
    exact ih h.2

theorem getField_objSet (fs : List (String × JVal)) (k : String) (v : JVal) :
    getField (.jobj (objSet fs k v)) k = v := by
  unfold objSet
  cases h : fs.any (fun p => p.1 = k) with
  | true => simpa using getField_setInPlace h
  | false => simpa using getField_appendSingle h

/-! ## Concrete fixtures used by witnesses and counterexamples -/

/-- A qualified company row `{Company: "A"}`. -/
def companyA : JVal := .jobj [("Company", .jstr "A")]

/-- A sourcing terminal frame
`{"type":"analysis_complete","result":{"qualified":[{"Company":"A"}]}}`. -/
def sourcingTerminalFrame : JVal :=
  .jobj [("type", .jstr "analysis_complete"),
         ("result", .jobj [("qualified", .jarr [companyA])])]

/-- A non-terminal frame carrying only a `message` field. -/
def msgOnlyFrame : JVal :=
  .jobj [("type", .jstr "progress"), ("message", .jstr "hello")]

/-- A screening terminal frame with an empty `company_details` payload. -/
def screeningTerminalFrame : JVal :=
  .jobj [("type", .jstr "final_result"),
         ("content", .jobj [("company_details", .jarr [companyA])])]

/-- The component state right after `handleSourceCompanies` began
streaming. -/
def c2state0 : AgentState :=
  { initialAgentState with isSubmitting := true, showStreamingPanel := true }

/-! ## Claims -/

/-- Claim C4 (confirmed): for every streaming session, an inbound frame
whose payload fails to parse is dropped — not appended to the event log,
no state slot mutated — and the session stays streaming (in particular no
`ws.close()` happens), for all three stage handlers.  In the sourcing and
screening handlers the `JSON.parse` exception is uncaught but thrown
before any mutation; in the risk handler it is caught by the `try` block. -/
theorem claim_C4 (s : AgentState) :
    sourcingOnMessage s none = s ∧
    screeningOnMessage s none = s ∧
    riskOnMessage s none = s :=
  ⟨rfl, rfl, rfl⟩

/-- Claim C3 counterexample: with a Screening result and a Risk Analysis
result both present, `resetScreening` leaves the Risk Analysis
`StageResult` in place (still truthy), contradicting the claim that
resetting a stage clears every downstream `StageResult`. -/
theorem claim_C3_counterexample :
    truthy ({ initialAgentState with
      screeningResponse := .jobj [("company_details", .jarr [companyA])],
      riskAnalysisResponse := .jobj [("all_companies", .jarr [])]
    } : AgentState).riskAnalysisResponse = true ∧
    (resetScreening { initialAgentState with
      screeningResponse := .jobj [("company_details", .jarr [companyA])],
      riskAnalysisResponse := .jobj [("all_companies", .jarr [])] }).screeningResponse
      = .jnull ∧
    truthy (resetScreening { initialAgentState with
      screeningResponse := .jobj [("company_details", .jarr [companyA])],
      riskAnalysisResponse := .jobj [("all_companies", .jarr [])] }).riskAnalysisResponse
      = true :=
  ⟨rfl, rfl, rfl⟩

/-- Claim C3 amended: `resetScreening` clears exactly the Screening
`StageResult`, the expanded-row map and the company selection map, and
leaves everything else — including the downstream Risk Analysis
`StageResult` and all parameter selection maps — untouched;
`resetRiskAnalysis` clears exactly the Risk Analysis `StageResult`. -/
theorem claim_C3_amended (s : AgentState) :
    (resetScreening s).screeningResponse = .jnull ∧
    (resetScreening s).expandedScreeningResults = [] ∧
    (resetScreening s).selectedCompanies = [] ∧
    (resetScreening s).riskAnalysisResponse = s.riskAnalysisResponse ∧
    (resetScreening s).filterResponse = s.filterResponse ∧
    (resetScreening s).selectedSourcingKeys = s.selectedSourcingKeys ∧
    (resetScreening s).selectedScreeningKeys = s.selectedScreeningKeys ∧
    (resetScreening s).selectedRiskAnalysisKeys = s.selectedRiskAnalysisKeys ∧
    (resetRiskAnalysis s).riskAnalysisResponse = .jnull ∧
    (resetRiskAnalysis s).screeningResponse = s.screeningResponse ∧
    (resetRiskAnalysis s).filterResponse = s.filterResponse ∧
    (resetRiskAnalysis s).selectedCompanies = s.selectedCompanies :=
  ⟨rfl, rfl, rfl, rfl, rfl, rfl, rfl, rfl, rfl, rfl, rfl, rfl⟩

/-- Claim C1 counterexample: starting from the initial state, the
sourcing terminal event stores a non-empty qualified list, yet the
company selection map is left empty, so company row 0 is NOT selected —
refuting the select-all re-seeding claimed for a fresh `StageResult`. -/
theorem claim_C1_counterexample :
    getField (getField (sourcingOnMessage initialAgentState
        (some sourcingTerminalFrame)).filterResponse "companies") "qualified"
      = .jarr [companyA] ∧
    (sourcingOnMessage initialAgentState (some sourcingTerminalFrame)).selectedCompanies
      = [] ∧
    recGetN (sourcingOnMessage initialAgentState
        (some sourcingTerminalFrame)).selectedCompanies 0 = false :=
  ⟨rfl, rfl, rfl⟩

/-- Claim C1 amended: the select-all default exists only for the three
parameter lists (their `useEffect`s seed every key to `true` whenever the
list is non-empty); the company selection map is NOT reinitialised when a
fresh Sourcing `StageResult` arrives — the sourcing message handler never
touches it, so it keeps its previous (initially empty) value. -/
theorem claim_C1_amended :
    (∀ (l : List Param) (p : Param), p ∈ l → recGet (seedAllSelected l) p.key = true) ∧
    (∀ (l : List Param) (prev : List (String × Bool)), l ≠ [] →
      seedEffect l prev = seedAllSelected l) ∧
    (∀ (s : AgentState) (raw : Option JVal),
      (sourcingOnMessage s raw).selectedCompanies = s.selectedCompanies) := by
  refine ⟨fun l p hp => recGet_seedAll hp, fun l prev hl => ?_, fun s raw => ?_⟩
  · unfold seedEffect
    rw [if_pos]
    exact List.length_pos.mpr hl
  · cases raw with
    | none => rfl
    | some e =>
      unfold sourcingOnMessage
      by_cases h : (isStrEq (getField e "type") "analysis_complete" &&
          truthy (getField e "result")) = true <;> simp [h]

/-- Claim C1 amended, witness: a concrete one-parameter list is fully
selected by the seeding effect, and a concrete sourcing terminal frame
leaves the company selection map unchanged. -/
theorem claim_C1_amended_witness :
    recGet (seedAllSelected [⟨"Revenue", "10"⟩]) "Revenue" = true ∧
    (sourcingOnMessage initialAgentState (some sourcingTerminalFrame)).selectedCompanies
      = initialAgentState.selectedCompanies :=
  ⟨claim_C1_amended.1 [⟨"Revenue", "10"⟩] ⟨"Revenue", "10"⟩ (by simp),
   claim_C1_amended.2.2 initialAgentState (some sourcingTerminalFrame)⟩

/-- A risk-analysis terminal frame
`{"type":"session_complete","results":[{"overallStatus":"SAFE"}]}`. -/
def riskTerminalFrame : JVal :=
  .jobj [("type", .jstr "session_complete"),
         ("results", .jarr [.jobj [("overallStatus", .jstr "SAFE")]])]

/-- What the `session_complete` transform stores for `riskTerminalFrame`. -/
def riskTerminalAggregate : JVal :=
  .jobj [("all_companies", .jarr [.jobj [("company_name", .jstr "Unknown"),
           ("risk_scores", .jarr []),
           ("overall_status", .jstr "SAFE")]]),
         ("summary", .jobj [("total", .jnum 1), ("passed", .jnum 1)])]

/-- Claim C2 counterexample: delivering the same terminal frame twice —
`analysis_complete` to the sourcing session, or `session_complete` to the
risk-analysis session — appends both frames to the event log but also
re-runs the whole terminal branch each time: `ws.close()` is called twice
(the spec demands exactly one close/aggregation), so the duplicate is not
ignored and the stored `StageResult` is overwritten a second time. -/
theorem claim_C2_counterexample :
    (sourcingOnMessage (sourcingOnMessage c2state0 (some sourcingTerminalFrame))
        (some sourcingTerminalFrame)).closeCalls = 2 ∧
    (sourcingOnMessage (sourcingOnMessage c2state0 (some sourcingTerminalFrame))
        (some sourcingTerminalFrame)).streamingEvents.length = 2 ∧
    (sourcingOnMessage c2state0 (some sourcingTerminalFrame)).closeCalls = 1 ∧
    (riskOnMessage (riskOnMessage c2state0 (some riskTerminalFrame))
        (some riskTerminalFrame)).closeCalls = 2 ∧
    (riskOnMessage (riskOnMessage c2state0 (some riskTerminalFrame))
        (some riskTerminalFrame)).streamingEvents.length = 2 ∧
    (riskOnMessage c2state0 (some riskTerminalFrame)).closeCalls = 1 :=
  ⟨rfl, rfl, rfl, rfl, rfl, rfl⟩

/-- Claim C2 amended: neither the sourcing nor the risk-analysis handler
has a terminal-state guard — EVERY frame satisfying the stage's terminal
condition (`analysis_complete` with a truthy `result` for Sourcing;
`session_complete` with truthy `results` whose transform succeeds for
Risk Analysis), including one arriving after a previous terminal frame,
is appended, re-aggregated into a fresh `StageResult` that replaces the
stored one, and followed by another `ws.close()` call, whatever the prior
state was. -/
theorem claim_C2_amended :
    (∀ (s : AgentState) (e : JVal),
      isStrEq (getField e "type") "analysis_complete" = true →
      truthy (getField e "result") = true →
      sourcingOnMessage s (some e) =
        { s with streamingEvents := s.streamingEvents ++ [e],
                 filterResponse := sourcingAggregate e,
                 showStreamingPanel := false,
                 closeCalls := s.closeCalls + 1 }) ∧
    (∀ (s : AgentState) (e : JVal) (tr : JVal),
      isStrEq (getField e "type") "session_complete" = true →
      truthy (getField e "results") = true →
      riskTransform (getField e "results") = .ok tr →
      riskOnMessage s (some e) =
        { s with streamingEvents := s.streamingEvents ++ [e],
                 riskAnalysisResponse := tr,
                 showStreamingPanel := false,
                 closeCalls := s.closeCalls + 1 }) := by
  constructor
  · intro s e h1 h2
    unfold sourcingOnMessage
    simp [h1, h2]
  · intro s e tr h1 h2 htr
    unfold riskOnMessage
    simp [h1, h2, htr]

/-- Claim C2 amended, witness: concrete terminal frames for Sourcing and
Risk Analysis satisfy their terminal conditions, and processing each one
from a state that already aggregated once still replaces the stored
result and closes again. -/
theorem claim_C2_amended_witness :
    isStrEq (getField sourcingTerminalFrame "type") "analysis_complete" = true ∧
    truthy (getField sourcingTerminalFrame "result") = true ∧
    sourcingOnMessage (sourcingOnMessage c2state0 (some sourcingTerminalFrame))
        (some sourcingTerminalFrame) =
      { (sourcingOnMessage c2state0 (some sourcingTerminalFrame)) with
        streamingEvents := (sourcingOnMessage c2state0
          (some sourcingTerminalFrame)).streamingEvents ++ [sourcingTerminalFrame],
        filterResponse := sourcingAggregate sourcingTerminalFrame,
        showStreamingPanel := false,
        closeCalls := (sourcingOnMessage c2state0 (some sourcingTerminalFrame)).closeCalls + 1 } ∧
    isStrEq (getField riskTerminalFrame "type") "session_complete" = true ∧
    truthy (getField riskTerminalFrame "results") = true ∧
    riskTransform (getField riskTerminalFrame "results") = .ok riskTerminalAggregate ∧
    riskOnMessage (riskOnMessage c2state0 (some riskTerminalFrame))
        (some riskTerminalFrame) =
      { (riskOnMessage c2state0 (some riskTerminalFrame)) with
        streamingEvents := (riskOnMessage c2state0
          (some riskTerminalFrame)).streamingEvents ++ [riskTerminalFrame],
        riskAnalysisResponse := riskTerminalAggregate,
        showStreamingPanel := false,
        closeCalls := (riskOnMessage c2state0 (some riskTerminalFrame)).closeCalls + 1 } :=
  ⟨rfl, rfl, claim_C2_amended.1 _ sourcingTerminalFrame rfl rfl,
   rfl, rfl, rfl, claim_C2_amended.2 _ riskTerminalFrame riskTerminalAggregate rfl rfl rfl⟩

/-- A state on step 1 with one selected screening parameter and one
selected sourcing company, no submission in flight, no screening result. -/
def c5state : AgentState :=
  { initialAgentState with
    screeningList := [⟨"Revenue", "10"⟩],
    selectedScreeningKeys := [("Revenue", true)],
    filterResponse := .jobj [("companies", .jobj [("qualified", .jarr [companyA])])],
    selectedCompanies := [(0, true)] }

/-- Claim C5 (confirmed): while no Screening result exists, the Screen
Companies button is disabled exactly when a submission is in flight or no
screening parameter or no company is selected; absent an in-flight
submission it is enabled iff at least one parameter and one company are
selected; and `handleScreenCompanies` contacts the remote engine iff both
selections are non-empty, leaving the state untouched when it refuses. -/
theorem claim_C5 (s : AgentState) (hr : s.screeningResponse = .jnull) :
    (screenButtonDisabled s = true ↔
      (s.isSubmitting = true ∨ getSelectedScreeningItems s = [] ∨
       getSelectedCompanyList s = [])) ∧
    ((handleScreenStart s).2 = true ↔
      (getSelectedScreeningItems s ≠ [] ∧ getSelectedCompanyList s ≠ [])) ∧
    ((handleScreenStart s).2 = false → (handleScreenStart s).1 = s) ∧
    (s.isSubmitting = false →
      (screenButtonDisabled s = false ↔
        (getSelectedScreeningItems s ≠ [] ∧ getSelectedCompanyList s ≠ []))) := by
  have ht : truthy (JVal.jnull) = false := rfl
  by_cases ha : getSelectedScreeningItems s = [] <;>
  by_cases hb : getSelectedCompanyList s = [] <;>
  cases hsub : s.isSubmitting <;>
    simp [screenButtonDisabled, handleScreenStart, hr, ht, ha, hb, hsub,
      List.length_eq_zero, beq_iff_eq]

/-- Claim C5 witness: in the concrete state with one parameter and one
company selected, the button is enabled and the action proceeds. -/
theorem claim_C5_witness :
    screenButtonDisabled c5state = false ∧ (handleScreenStart c5state).2 = true := by
  have h := claim_C5 c5state rfl
  have hs : getSelectedScreeningItems c5state = [⟨"Revenue", "10"⟩] := rfl
  have hc : getSelectedCompanyList c5state = [companyA] := rfl
  refine ⟨(h.2.2.2 rfl).mpr ⟨?_, ?_⟩, h.2.1.mpr ⟨?_, ?_⟩⟩
  · rw [hs]; simp
  · rw [hc]; simp
  · rw [hs]; simp
  · rw [hc]; simp

/-- Claim C6 (confirmed): on any (necessarily truthy) object input the
normalizer emits exactly one parameter per entry, in iteration order,
with the key transform agreeing — on every string — with the spec's rule
"split on underscore, uppercase the first character of each word, join
with single spaces", and the documented examples hold. -/
theorem claim_C6 :
    (∀ fs : List (String × JVal),
      toDisplayArray (.jobj fs) =
        .ok (fs.map (fun p => ⟨titleKey p.1, jsString p.2⟩)) ∧
      (fs.map (fun p => (⟨titleKey p.1, jsString p.2⟩ : Param))).length = fs.length) ∧
    (∀ l : List Char, titleKeyList l = specTitleKeyList l) ∧
    titleKey "net_income" = "Net Income" ∧
    titleKey "pe_ratio" = "Pe Ratio" ∧
    titleKey "Already Spaced" = "Already Spaced" := by
  refine ⟨fun fs => ⟨rfl, by simp⟩, titleKeyList_eq_spec, by decide, by decide, by decide⟩

/-- Claim C10 counterexample: the normalizer is NOT total in the claimed
way — the falsy non-null input `""` yields `[]` rather than the claimed
`[{key: String(input), value: ""}]` (and so do `0` and `false`), and a
`null` array element makes `Object.entries(null)` throw a `TypeError`,
contradicting "it never throws". -/
theorem claim_C10_counterexample :
    toDisplayArray (.jstr "") = .ok [] ∧
    (Except.ok ([] : List Param) ≠
      (.ok [({ key := "", value := "" } : Param)] : Except String (List Param))) ∧
    toDisplayArray (.jarr [.jnull]) = .error "TypeError" ∧
    toDisplayArray (.jnum 0) = .ok [] ∧
    toDisplayArray (.jbool false) = .ok [] := by
  refine ⟨rfl, by simp, rfl, rfl, rfl⟩

/-- Total form of `itemToParam`, which it equals on non-null elements. -/
def itemToParamD (item : JVal) : Param :=
  match itemToParam item with
  | .ok p => p
  | .error _ => ⟨"", ""⟩

theorem itemToParam_ok {x : JVal} (hx : x ≠ .jnull) :
    itemToParam x = .ok (itemToParamD x) := by
  cases x with
  | jnull => exact absurd rfl hx
  | jundefined => rfl
  | jbool b => rfl
  | jnum n => rfl
  | jstr s => rfl
  | jarr xs => rfl
  | jobj fs => rfl

/-- Claim C10 amended: the normalizer returns `[]` for EVERY falsy input
(`null`, `undefined`, `""`, `0`, `false`); a truthy non-array non-object
input yields the claimed singleton; an array with no `null` element maps
elementwise (length preserved, in order) — string elements to
`{key: element, value: ""}`, object/array elements to their first entry
(an empty object giving `{key: "", value: ""}`) — while a `null` element
throws; and it never returns anything but a list or that exception. -/
theorem claim_C10_amended :
    toDisplayArray .jnull = .ok [] ∧
    toDisplayArray .jundefined = .ok [] ∧
    toDisplayArray (.jstr "") = .ok [] ∧
    toDisplayArray (.jnum 0) = .ok [] ∧
    toDisplayArray (.jbool false) = .ok [] ∧
    (∀ s : String, s ≠ "" → toDisplayArray (.jstr s) = .ok [⟨s, ""⟩]) ∧
    (∀ n : Int, n ≠ 0 → toDisplayArray (.jnum n) = .ok [⟨toString n, ""⟩]) ∧
    (∀ xs : List JVal, (∀ x ∈ xs, x ≠ .jnull) →
      toDisplayArray (.jarr xs) = .ok (xs.map itemToParamD) ∧
      (xs.map itemToParamD).length = xs.length) ∧
    itemToParamD (.jobj []) = ⟨"", ""⟩ ∧
    itemToParamD (.jobj [("k", .jstr "v")]) = ⟨"k", "v"⟩ ∧
    itemToParamD (.jstr "x") = ⟨"x", ""⟩ := by
  refine ⟨rfl, rfl, rfl, rfl, rfl, ?_, ?_, ?_, rfl, rfl, rfl⟩
  · intro s hs
    have hemp : s.isEmpty = false := by
      cases h : s.isEmpty with
      | false => rfl
      | true => exact absurd ((String.isEmpty_iff s).mp h) hs
    have hne : truthy (.jstr s) = true := by
      simp [truthy, hemp]
    unfold toDisplayArray
    rw [hne]
    rfl
  · intro n hn
    have hne : truthy (.jnum n) = true := by
      simp [truthy, hn]
    unfold toDisplayArray
    rw [hne]
    rfl
  · intro xs hxs
    constructor
    · have : toDisplayArray (.jarr xs) = mapE itemToParam xs := rfl
      rw [this]
      exact mapE_ok_of_forall xs (fun x hx => itemToParam_ok (hxs x hx))
    · simp

/-- Claim C10 amended witness: a truthy string input and a null-free
mixed array evaluate as the amended claim states. -/
theorem claim_C10_amended_witness :
    toDisplayArray (.jstr "abc") = .ok [⟨"abc", ""⟩] ∧
    toDisplayArray (.jarr [.jstr "x", .jobj [("k", .jstr "v")]]) =
      .ok [⟨"x", ""⟩, ⟨"k", "v"⟩] := by
  refine ⟨claim_C10_amended.2.2.2.2.2.1 "abc" (by decide), ?_⟩
  have h2 := (claim_C10_amended.2.2.2.2.2.2.2.1
    [.jstr "x", .jobj [("k", .jstr "v")]] ?_).1
  · rw [h2]
    rfl
  · intro x hx
    rcases List.mem_cons.mp hx with h | h
    · subst h; intro hc; cases hc
    · rcases List.mem_cons.mp h with h1 | h1
      · subst h1; intro hc; cases hc
      · cases h1

/-- The claim's reading of the thinking cleanup (a leading RUN of
non-word/non-space symbols is stripped), stated only to exhibit where the
code diverges from it; the code strips a single character from a fixed
emoji set instead. -/
def claimCleanThinking (s : String) : String :=
  ⟨jsTrimList (stripStep
    ((s.data.dropWhile (fun c => !jsIsWordChar c && !jsIsSpace c)).dropWhile jsIsSpace))⟩

/-- The claim's description of `agentThinking`: scan every non-terminal
event, take `content` or — when it is absent — `message`, keep the
cleaned string when non-empty.  Stated only for comparison with the code. -/
def claimThinkingOf (events : List JVal) : List String :=
  events.filterMap (fun e =>
    if isStrEq (getField e "type") "final_result" then none
    else
      match (if isNullish (getField e "content") then getField e "message"
             else getField e "content") with
      | .jstr str =>
        if str.isEmpty then none
        else
          let c := claimCleanThinking str
          if c.isEmpty then none else some c
      | _ => none)

/-- Claim C7 counterexample: for a session holding one progress event that
carries its narrative in `message` (no `content`) and the terminal event,
the claim's reading of the aggregator yields `["hello"]`, but the code's
`agentThinking` in the stored Screening result is empty — the code never
consults `message`. -/
theorem claim_C7_counterexample :
    claimThinkingOf [msgOnlyFrame, screeningTerminalFrame] = ["hello"] ∧
    getField (screeningOnMessage (screeningOnMessage initialAgentState (some msgOnlyFrame))
        (some screeningTerminalFrame)).screeningResponse "agent_thinking" = .jarr [] ∧
    (JVal.jarr [] ≠ .jarr [.jstr "hello"]) := by
  refine ⟨rfl, rfl, by simp⟩

/-- Claim C7 amended: `agentThinking` collects, in order, from each event
whose `type` AND `content` are truthy with `content` a string (the
`message` field is never consulted; the terminal frame contributes nothing
only because its `content` is an object), the content with ONE leading
character from the fixed emoji set plus following whitespace stripped,
then an optional case-insensitive `STEP <n>:` prefix stripped, kept iff
non-empty after trimming; the stored result's `agent_thinking` field is
exactly the accumulated list at terminal time. -/
theorem claim_C7_amended :
    (∀ (s : AgentState) (evs : List JVal),
      (screeningSession s evs).agentThinkingSteps =
        s.agentThinkingSteps ++ evs.filterMap codeThinkStep) ∧
    (∀ (s : AgentState) (e : JVal),
      isStrEq (getField e "type") "final_result" = true →
      truthy (getField e "content") = true →
      getField (screeningOnMessage s (some e)).screeningResponse "agent_thinking" =
        .jarr (((screeningOnMessage s (some e)).agentThinkingSteps).map JVal.jstr)) ∧
    cleanThinking "STEP 3: evaluate" = "evaluate" ∧
    codeThinkStep msgOnlyFrame = none := by
  refine ⟨?_, ?_, by decide, rfl⟩
  · intro s evs
    induction evs generalizing s with
    | nil => simp [screeningSession]
    | cons e rest ih =>
      have hstep : screeningSession s (e :: rest) =
          screeningSession (screeningOnMessage s (some e)) rest := rfl
      rw [hstep, ih, screeningOnMessage_thinking]
      cases h : codeThinkStep e <;> simp [h, List.filterMap_cons]
  · intro s e h1 h2
    unfold screeningOnMessage
    cases hc : codeThinkStep e <;> simp [hc, h1, h2, getField_objSet]

/-- Claim C7 amended witness: at the concrete terminal frame the stored
`agent_thinking` equals the (empty) accumulated list. -/
theorem claim_C7_amended_witness :
    getField (screeningOnMessage initialAgentState
        (some screeningTerminalFrame)).screeningResponse "agent_thinking" = .jarr [] := by
  have h := claim_C7_amended.2.1 initialAgentState screeningTerminalFrame rfl rfl
  exact h

/-- The risk results of spec testable-property 6. -/
def riskExampleRaw : List JVal :=
  [.jobj [("overallStatus", .jstr "SAFE")],
   .jobj [("overallStatus", .jstr "unsafe")],
   .jobj [("overallStatus", .jstr "Safe")]]

/-- Claim C8 (confirmed): on any results array of non-nullish entries the
`session_complete` transform outputs one transformed company per raw
entry with `summary.total` the number of transformed companies and
`summary.passed` the number whose uppercased overall status is exactly
`"SAFE"`; on the documented example the summary is `{total: 3, passed: 2}`. -/
theorem claim_C8 :
    (∀ cs : List JVal, (∀ c ∈ cs, isNullish c = false) →
      riskTransform (.jarr cs) =
        .ok (.jobj [("all_companies", .jarr (cs.map companyTransformT)),
          ("summary", .jobj [("total", .jnum cs.length),
            ("passed", .jnum ((cs.map companyTransformT).filter isPassed).length)])])) ∧
    (∀ r : JVal, isPassed r = (jsToUpper (jsString (getField r "overall_status")) == "SAFE")) ∧
    getField (getField ((riskTransform (.jarr riskExampleRaw)).toOption.getD .jnull)
      "summary") "total" = .jnum 3 ∧
    getField (getField ((riskTransform (.jarr riskExampleRaw)).toOption.getD .jnull)
      "summary") "passed" = .jnum 2 := by
  refine ⟨?_, fun r => rfl, rfl, rfl⟩
  intro cs h
  have hmap : mapE companyTransform cs = .ok (cs.map companyTransformT) :=
    mapE_ok_of_forall cs (fun c hc => companyTransform_eq (h c hc))
  unfold riskTransform
  simp only [truthy, if_true]
  simp only [bind, Except.bind]
  rw [hmap]
  simp [List.length_map]

/-- Claim C8 witness: the documented example list consists of non-nullish
entries and transforms with `total = 3`. -/
theorem claim_C8_witness :
    riskTransform (.jarr riskExampleRaw) =
      .ok (.jobj [("all_companies", .jarr (riskExampleRaw.map companyTransformT)),
        ("summary", .jobj [("total", .jnum riskExampleRaw.length),
          ("passed", .jnum ((riskExampleRaw.map companyTransformT).filter
            isPassed).length)])]) := by
  refine claim_C8.1 riskExampleRaw ?_
  intro c hc
  rcases List.mem_cons.mp hc with h | hc2
  · subst h; rfl
  rcases List.mem_cons.mp hc2 with h | hc3
  · subst h; rfl
  rcases List.mem_cons.mp hc3 with h | hc4
  · subst h; rfl
  · cases hc4

/-! ## Claim C9: structure of the exported CSV -/

/-- A transformed risk score `{category, status, reason}` built from a
string triple. -/
def mkRiskScore (t : String × String × String) : JVal :=
  .jobj [("category", .jstr t.1), ("status", .jstr t.2.1), ("reason", .jstr t.2.2)]

/-- A transformed company `{company_name, risk_scores, overall_status}`
built from `(name, overallStatus, scores)`. -/
def mkRiskCompany (c : String × String × List (String × String × String)) : JVal :=
  .jobj [("company_name", .jstr c.1),
         ("risk_scores", .jarr (c.2.2.map mkRiskScore)),
         ("overall_status", .jstr c.2.1)]

/-- A stored risk-analysis response with the given companies. -/
def mkRiskResp (companies : List (String × String × List (String × String × String))) : JVal :=
  .jobj [("all_companies", .jarr (companies.map mkRiskCompany))]

/-- The expected unnumbered data rows: one per `(company, riskScore)`
pair, in order. -/
def flatRiskRows (companies : List (String × String × List (String × String × String))) :
    List (List String) :=
  (companies.map (fun c => c.2.2.map (fun t => [c.1, c.2.1, t.1, t.2.1, t.2.2]))).flatten

/-- The CSV text the export should produce for those companies. -/
def expectedRiskCSV (companies : List (String × String × List (String × String × String))) :
    String :=
  String.intercalate "\n"
    ("S.No.,Company Name,Overall Status,Category,Status,Reason" ::
     (flatRiskRows companies).enum.map (fun p =>
       String.intercalate "," ((toString (p.1 + 1) :: p.2).map escapeCSV)))

/-- The per-company row groups produced by `companyRows` over such
companies. -/
def rowsJOf (companies : List (String × String × List (String × String × String))) :
    List (List (List JVal)) :=
  companies.map (fun c => c.2.2.map (fun t =>
    ([c.1, c.2.1, t.1, t.2.1, t.2.2]).map JVal.jstr))

theorem companyRows_mk (c : String × String × List (String × String × String)) :
    companyRows (mkRiskCompany c) =
      .ok (c.2.2.map (fun t => ([c.1, c.2.1, t.1, t.2.1, t.2.2]).map JVal.jstr)) := by
  have h0 : companyRows (mkRiskCompany c) =
      mapE (riskRowFun (mkRiskCompany c)) (c.2.2.map mkRiskScore) := rfl
  rw [h0, mapE_map]
  exact mapE_ok_of_forall c.2.2 (fun t ht => rfl)

theorem enumFrom_map_pair (n : Nat) (l : List α) (f : α → β) :
    (l.map f).enumFrom n = (l.enumFrom n).map (fun p => (p.1, f p.2)) := by
  induction l generalizing n with
  | nil => rfl
  | cons a as ih => simp [List.enumFrom, ih]

theorem enum_map_pair (l : List α) (f : α → β) :
    (l.map f).enum = l.enum.map (fun p => (p.1, f p.2)) :=
  enumFrom_map_pair 0 l f

theorem rowsJ_flatten (companies : List (String × String × List (String × String × String))) :
    (rowsJOf companies).flatten = (flatRiskRows companies).map (List.map JVal.jstr) := by
  unfold rowsJOf flatRiskRows
  induction companies with
  | nil => rfl
  | cons c cs ih =>
    rw [List.map_cons, List.flatten_cons, List.map_cons, List.flatten_cons,
      List.map_append, ih, List.map_map]
    rfl

theorem mapE_jstr_escape (l : List String) :
    mapE escapeCSVJ (l.map JVal.jstr) = .ok (l.map escapeCSV) := by
  rw [mapE_map]
  exact mapE_ok_of_forall l (fun a ha => rfl)

theorem exportCSV_mkRiskResp (companies : List (String × String × List (String × String × String))) :
    exportRiskAnalysisToCSV (mkRiskResp companies) =
      some (.ok (expectedRiskCSV companies)) := by
  have hA : mapE companyRows (companies.map mkRiskCompany) = .ok (rowsJOf companies) := by
    rw [mapE_map]
    exact mapE_ok_of_forall companies (fun c hc => companyRows_mk c)
  have hnum : (((rowsJOf companies).flatten).enum.map
        (fun p => JVal.jstr (toString (p.1 + 1)) :: p.2))
      = (flatRiskRows companies).enum.map
        (fun p => (toString (p.1 + 1) :: p.2).map JVal.jstr) := by
    rw [rowsJ_flatten companies, enum_map_pair, List.map_map]
    rfl
  have hEsc : mapE (fun row => mapE escapeCSVJ row)
      (((rowsJOf companies).flatten).enum.map
        (fun p => JVal.jstr (toString (p.1 + 1)) :: p.2))
      = .ok ((flatRiskRows companies).enum.map
          (fun p => (toString (p.1 + 1) :: p.2).map escapeCSV)) := by
    rw [hnum, mapE_map]
    exact mapE_ok_of_forall _ (fun p hp => mapE_jstr_escape (toString (p.1 + 1) :: p.2))
  have h0 : exportRiskAnalysisToCSV (mkRiskResp companies)
      = some ((mapE companyRows (companies.map mkRiskCompany)).bind (fun rowsPer =>
          (mapE (fun row => mapE escapeCSVJ row)
            ((rowsPer.flatten).enum.map (fun p => JVal.jstr (toString (p.1 + 1)) :: p.2))).bind
            (fun escRows => Except.ok (String.intercalate "\n"
              (String.intercalate "," (csvHeaders.map escapeCSV) ::
               escRows.map (String.intercalate ",")))))) := rfl
  rw [h0, hA]
  show some ((mapE (fun row => mapE escapeCSVJ row)
      (((rowsJOf companies).flatten).enum.map
        (fun p => JVal.jstr (toString (p.1 + 1)) :: p.2))).bind
      (fun escRows => Except.ok (String.intercalate "\n"
        (String.intercalate "," (csvHeaders.map escapeCSV) ::
         escRows.map (String.intercalate ","))))) = _
  rw [hEsc]
  show some (Except.ok (String.intercalate "\n"
      (String.intercalate "," (csvHeaders.map escapeCSV) ::
       ((flatRiskRows companies).enum.map
         (fun p => (toString (p.1 + 1) :: p.2).map escapeCSV)).map
         (String.intercalate ",")))) = _
  rw [List.map_map]
  rfl

/-- Claim C9 (confirmed): for every stored risk result (name, overall
status, and scores all strings, as the risk transform produces), the CSV
export has header `S.No., Company Name, Overall Status, Category, Status,
Reason`, exactly one data row per `(company, riskScore)` pair in order
(serially numbered), and each field is double-quoted with internal quotes
doubled iff it contains a comma, double quote or newline — in particular
reason `ok, fine` is quoted and `fine` is not. -/
theorem claim_C9 :
    (∀ companies : List (String × String × List (String × String × String)),
      exportRiskAnalysisToCSV (mkRiskResp companies) =
        some (.ok (expectedRiskCSV companies))) ∧
    String.intercalate "," (csvHeaders.map escapeCSV) =
      "S.No.,Company Name,Overall Status,Category,Status,Reason" ∧
    (∀ companies : List (String × String × List (String × String × String)),
      (flatRiskRows companies).length =
        ((companies.map (fun c => c.2.2.length)).foldr (· + ·) 0)) ∧
    (∀ s : String, needsQuote s = true →
      escapeCSV s = "\"" ++ (⟨escapeQuotesList s.data⟩ : String) ++ "\"") ∧
    (∀ s : String, needsQuote s = false → escapeCSV s = s) ∧
    escapeCSV "ok, fine" = "\"ok, fine\"" ∧
    escapeCSV "fine" = "fine" := by
  refine ⟨exportCSV_mkRiskResp, rfl, ?_, ?_, ?_, rfl, rfl⟩
  · intro companies
    unfold flatRiskRows
    induction companies with
    | nil => rfl
    | cons c cs ih =>
      simp [List.length_append, ih]
  · intro s h
    unfold escapeCSV
    rw [if_pos h]
  · intro s h
    unfold escapeCSV
    rw [if_neg (by rw [h]; exact Bool.false_ne_true)]

/-- The concrete companies used in the CSV witness. -/
def csvExampleCompanies : List (String × String × List (String × String × String)) :=
  [("Acme", "SAFE", [("Liquidity", "PASS", "ok, fine"), ("Credit", "FAIL", "fine")])]

/-- Claim C9 witness: a concrete export with both a quoted and an
unquoted reason field. -/
theorem claim_C9_witness :
    exportRiskAnalysisToCSV (mkRiskResp csvExampleCompanies) =
      some (.ok ("S.No.,Company Name,Overall Status,Category,Status,Reason\n1,Acme,SAFE,Liquidity,PASS,\"ok, fine\"\n2,Acme,SAFE,Credit,FAIL,fine")) ∧
    needsQuote "ok, fine" = true ∧ needsQuote "fine" = false := by
  refine ⟨?_, rfl, rfl⟩
  rw [claim_C9.1 csvExampleCompanies]
  rfl
